import Mathlib

/-!
Verification of `run_daily_sales_to_gsheet.py` (repository `sybeck/d_check`).

This file gives a shallow embedding of the driver module and proves properties
of it.  Python runtime values appearing in channel payloads are modelled by the
inductive type `PyVal`; machine-level details are modelled as follows:

* Python `int` is unbounded, modelled by `Int`.
* Python `float` is modelled by `Rat` (all concrete float literals exercised by
  the program and by the theorems below are small decimal fractions, which a
  `Rat` represents exactly; `int(float)` truncates toward zero in both).
* Exceptions are modelled by `Option`/`Except`: a `none` / `.error` result
  models a raised exception.  Functions of the source that cannot raise are
  embedded as total functions.
* `str.splitlines` is modelled as splitting on `'\n'` (the driver reads
  subprocess output opened in text mode, where newlines are normalised; blank
  lines produced by other terminators are filtered out immediately afterwards
  in the source, so the distinction is unobservable here).
* `json.loads` / `ast.literal_eval` are modelled by the recursive-descent
  readers below over `PyVal`.  The modelled fragment covers objects, arrays,
  strings with the common escapes, integers and the keyword literals; JSON
  floats and Python literals other than dict/list/str/int/bool/None are outside
  the modelled fragment (no claim below depends on them).
* The Google-Sheets worksheet is modelled by its title and its column A
  (`gspread.Worksheet.col_values(1)`); `append_row` appends one row.  Cell
  writes are recorded as `WriteOp` values.
-/

/-- Model of a Python runtime value as found in channel payloads.
Dictionary keys are modelled as strings (all payload dictionaries produced by
`json.loads` / the scrapers are string-keyed). -/
inductive PyVal where
  | none
  | bool (b : Bool)
  | int (n : Int)
  | float (q : Rat)
  | str (s : String)
  | list (xs : List PyVal)
  | dict (entries : List (String × PyVal))

/-- Python truthiness (`bool(v)`), used by `or` in the source. -/
def pyTruthy : PyVal → Bool
  | PyVal.none => false
  | PyVal.bool b => b
  | PyVal.int n => n != 0
  | PyVal.float q => q != 0
  | PyVal.str s => s != ""
  | PyVal.list xs => !xs.isEmpty
  | PyVal.dict es => !es.isEmpty

/-- Python `a or b`: returns `a` when truthy, otherwise `b`. -/
def pyOr (a b : PyVal) : PyVal := if pyTruthy a then a else b

/-- Whitespace characters removed by Python `str.strip()` (ASCII fragment). -/
def isPySpace (c : Char) : Bool :=
  c = ' ' || c = '\t' || c = '\n' || c = '\x0d' || c = '\x0b' || c = '\x0c'

/-- Drop trailing characters satisfying `p`. -/
def dropTrailing (p : Char → Bool) (cs : List Char) : List Char :=
  (cs.reverse.dropWhile p).reverse

/-- Python `str.strip()` on the character list. -/
def pyStripL (cs : List Char) : List Char :=
  dropTrailing isPySpace (cs.dropWhile isPySpace)

/-- Python `str.strip()`. -/
def pyStrip (s : String) : String := String.mk (pyStripL s.data)

/-- Value of a list of decimal digit characters. -/
def digitsVal (cs : List Char) : Nat :=
  cs.foldl (fun acc c => 10 * acc + (c.toNat - '0'.toNat)) 0

mutual

/-- Validity of the digit part accepted by Python `int(str)`:
nonempty digits, with single underscores allowed between digits. -/
def validDigitPart : List Char → Bool
  | [] => false
  | c :: rest => c.isDigit && validDigitTail rest

/-- Continuation of `validDigitPart`: after at least one digit. -/
def validDigitTail : List Char → Bool
  | [] => true
  | '_' :: rest => validDigitPart rest
  | c :: rest => c.isDigit && validDigitTail rest

end

/-- Python `int(str)`: strips whitespace, then an optional sign followed by
digits (underscores between digits allowed); `none` models `ValueError`.
(Only ASCII decimal digits are modelled.) -/
def pyIntOfString (s : String) : Option Int :=
  let cs := pyStripL s.data
  match cs with
  | '-' :: rest =>
    if validDigitPart rest then some (-(digitsVal (rest.filter Char.isDigit) : Int)) else Option.none
  | '+' :: rest =>
    if validDigitPart rest then some ((digitsVal (rest.filter Char.isDigit) : Int)) else Option.none
  | _ =>
    if validDigitPart cs then some ((digitsVal (cs.filter Char.isDigit) : Int)) else Option.none

/-- Python `int(float)`: truncation toward zero. -/
def pyTrunc (q : Rat) : Int :=
  if 0 ≤ q.num then q.num / (q.den : Int) else -((-q.num) / (q.den : Int))

/-- Python `int(v)` for the modelled values; `none` models a raised
`TypeError`/`ValueError`.  `bool` is an `int` subclass in Python. -/
def pyInt : PyVal → Option Int
  | PyVal.bool b => some (if b then 1 else 0)
  | PyVal.int n => some n
  | PyVal.float q => some (pyTrunc q)
  | PyVal.str s => pyIntOfString s
  | _ => Option.none

/-- First value bound to key `k` in a modelled dictionary (keys are unique in
dictionaries built by the readers below). -/
def pyLookup (es : List (String × PyVal)) (k : String) : Option PyVal :=
  (es.find? (fun p => p.1 == k)).map (fun p => p.2)

/-- Python `d.get(k, dflt)`. -/
def pyGetD (es : List (String × PyVal)) (k : String) (dflt : PyVal) : PyVal :=
  (pyLookup es k).getD dflt

/-- Insertion into a modelled dictionary: replaces the value in place when the
key is present (Python dict update semantics), otherwise appends. -/
def dictInsert (es : List (String × PyVal)) (k : String) (v : PyVal) :
    List (String × PyVal) :=
  match es with
  | [] => [(k, v)]
  | (k', v') :: rest =>
    if k' == k then (k', v) :: rest else (k', v') :: dictInsert rest k v

example : pyStrip "  a b\t" = "a b" := by decide
example : pyIntOfString " -12 " = some (-12) := by decide
example : pyIntOfString "1-2" = Option.none := by decide
example : pyIntOfString "" = Option.none := by decide
example : pyTrunc (mkRat 129 10) = 12 := by decide
example : pyTrunc (mkRat (-129) 10) = -12 := by decide

/-- JSON whitespace accepted by `json.loads` between tokens. -/
def isJsonWs (c : Char) : Bool :=
  c = ' ' || c = '\t' || c = '\n' || c = '\x0d'

/-- Skip JSON whitespace. -/
def skipWsL (cs : List Char) : List Char := cs.dropWhile isJsonWs

/-- Decode a single-character JSON string escape. -/
def jsonEsc : Char → Option Char
  | '"' => some '"'
  | '\\' => some '\\'
  | '/' => some '/'
  | 'b' => some '\x08'
  | 'f' => some '\x0c'
  | 'n' => some '\n'
  | 'r' => some '\x0d'
  | 't' => some '\t'
  | _ => Option.none

/-- Value of a hexadecimal digit. -/
def hexVal (c : Char) : Option Nat :=
  if c.isDigit then some (c.toNat - '0'.toNat)
  else if 'a' ≤ c ∧ c ≤ 'f' then some (c.toNat - 'a'.toNat + 10)
  else if 'A' ≤ c ∧ c ≤ 'F' then some (c.toNat - 'A'.toNat + 10)
  else Option.none

/-- Body of a double-quoted JSON string, after the opening quote: returns the
decoded content and the input following the closing quote. -/
def parseStrBody : Nat → List Char → Option (List Char × List Char)
  | 0, _ => Option.none
  | _+1, [] => Option.none
  | f+1, c :: rest =>
    if c = '"' then some ([], rest)
    else if c = '\\' then
      match rest with
      | 'u' :: h1 :: h2 :: h3 :: h4 :: rest2 =>
        match hexVal h1, hexVal h2, hexVal h3, hexVal h4 with
        | some a, some b, some c2, some d =>
          (parseStrBody f rest2).map
            (fun p => (Char.ofNat (((a * 16 + b) * 16 + c2) * 16 + d) :: p.1, p.2))
        | _, _, _, _ => Option.none
      | e :: rest2 =>
        match jsonEsc e with
        | some c2 => (parseStrBody f rest2).map (fun p => (c2 :: p.1, p.2))
        | Option.none => Option.none
      | [] => Option.none
    else if c.toNat < 32 then Option.none
    else (parseStrBody f rest).map (fun p => (c :: p.1, p.2))

/-- Digit part of a JSON number.  Only the integer fragment is modelled: a
following fraction or exponent makes the reader fail (no claim involves JSON
floats).  A leading zero may not be followed by further digits. -/
def parseNumTail (cs : List Char) : Option (Nat × List Char) :=
  match cs with
  | '0' :: rest =>
    match rest.head? with
    | some c => if c.isDigit || c = '.' || c = 'e' || c = 'E' then Option.none else some (0, rest)
    | Option.none => some (0, rest)
  | c :: rest =>
    if c.isDigit then
      match (rest.dropWhile Char.isDigit).head? with
      | some c2 =>
        if c2 = '.' || c2 = 'e' || c2 = 'E' then Option.none
        else some (digitsVal (c :: rest.takeWhile Char.isDigit), rest.dropWhile Char.isDigit)
      | Option.none =>
        some (digitsVal (c :: rest.takeWhile Char.isDigit), rest.dropWhile Char.isDigit)
    else Option.none
  | [] => Option.none

/-- A JSON number (integer fragment). -/
def parseNumber : List Char → Option (PyVal × List Char)
  | '-' :: rest => (parseNumTail rest).map (fun p => (PyVal.int (-(p.1 : Int)), p.2))
  | cs => (parseNumTail cs).map (fun p => (PyVal.int ((p.1 : Int)), p.2))

/-- Expect the literal characters `lit` and yield `v`. -/
def expectChars (lit : List Char) (v : PyVal) (cs : List Char) : Option (PyVal × List Char) :=
  if lit.isPrefixOf cs then some (v, cs.drop lit.length) else Option.none

/-- Build a dictionary from parsed members in order, later duplicate keys
overwriting earlier ones in place (Python dict construction). -/
def buildDict (ps : List (String × PyVal)) : List (String × PyVal) :=
  ps.foldl (fun acc p => dictInsert acc p.1 p.2) []

mutual

/-- A JSON value.  The input is expected to start at a non-whitespace
character (callers skip whitespace). -/
def parseVal : Nat → List Char → Option (PyVal × List Char)
  | 0, _ => Option.none
  | _+1, [] => Option.none
  | f+1, c :: rest =>
    if c = '{' then
      (parseObjAfterBrace f rest).map (fun p => (PyVal.dict (buildDict p.1), p.2))
    else if c = '[' then
      (parseArrAfterBracket f rest).map (fun p => (PyVal.list p.1, p.2))
    else if c = '"' then
      (parseStrBody f rest).map (fun p => (PyVal.str (String.mk p.1), p.2))
    else if c = 't' then expectChars ['r', 'u', 'e'] (PyVal.bool true) rest
    else if c = 'f' then expectChars ['a', 'l', 's', 'e'] (PyVal.bool false) rest
    else if c = 'n' then expectChars ['u', 'l', 'l'] PyVal.none rest
    else parseNumber (c :: rest)

/-- A JSON object body, after the opening brace. -/
def parseObjAfterBrace : Nat → List Char → Option (List (String × PyVal) × List Char)
  | 0, _ => Option.none
  | f+1, cs =>
    match skipWsL cs with
    | [] => Option.none
    | c :: r => if c = '}' then some ([], r) else parseMembers f (c :: r)

/-- One or more JSON object members, ending at the closing brace. -/
def parseMembers : Nat → List Char → Option (List (String × PyVal) × List Char)
  | 0, _ => Option.none
  | f+1, cs =>
    match cs with
    | [] => Option.none
    | q :: cs2 =>
      if q = '"' then
        match parseStrBody f cs2 with
        | Option.none => Option.none
        | some (k, cs3) =>
          match skipWsL cs3 with
          | [] => Option.none
          | c :: cs4 =>
            if c = ':' then
              match parseVal f (skipWsL cs4) with
              | Option.none => Option.none
              | some (v, cs5) =>
                match skipWsL cs5 with
                | [] => Option.none
                | c2 :: cs6 =>
                  if c2 = ',' then
                    (parseMembers f (skipWsL cs6)).map
                      (fun p => ((String.mk k, v) :: p.1, p.2))
                  else if c2 = '}' then some ([(String.mk k, v)], cs6)
                  else Option.none
            else Option.none
      else Option.none

/-- A JSON array body, after the opening bracket. -/
def parseArrAfterBracket : Nat → List Char → Option (List PyVal × List Char)
  | 0, _ => Option.none
  | f+1, cs =>
    match skipWsL cs with
    | [] => Option.none
    | c :: r => if c = ']' then some ([], r) else parseElems f (c :: r)

/-- One or more JSON array elements, ending at the closing bracket. -/
def parseElems : Nat → List Char → Option (List PyVal × List Char)
  | 0, _ => Option.none
  | f+1, cs =>
    match parseVal f cs with
    | Option.none => Option.none
    | some (v, cs2) =>
      match skipWsL cs2 with
      | [] => Option.none
      | c :: cs3 =>
        if c = ',' then (parseElems f (skipWsL cs3)).map (fun p => (v :: p.1, p.2))
        else if c = ']' then some ([v], cs3)
        else Option.none

end

/-- Model of `json.loads` on the fragment described in the header: skip
surrounding whitespace, read one value, require the input to be exhausted. -/
def jsonLoads (s : String) : Option PyVal :=
  match parseVal (s.data.length + 1) (skipWsL s.data) with
  | some (v, rest) => if skipWsL rest = [] then some v else Option.none
  | Option.none => Option.none

example :
    jsonLoads "\x7b\"sales\": 5, \"orders\": 1\x7d" =
      some (PyVal.dict [("sales", PyVal.int 5), ("orders", PyVal.int 1)]) := by rfl

example : jsonLoads " \x7b\"a\": [1, -2, null], \"a\": true\x7d " =
    some (PyVal.dict [("a", PyVal.bool true)]) := by rfl

example : jsonLoads "\x7b\"a\": 1\x7d x" = Option.none := by rfl

example : jsonLoads "\x7b'a': 1\x7d" = Option.none := by rfl

/-- Decoding of a Python string escape: known escapes decode, unknown escapes
keep the backslash (CPython behaviour). -/
def pyEsc (e : Char) : List Char :=
  match e with
  | 'n' => ['\n']
  | 't' => ['\t']
  | 'r' => ['\x0d']
  | '\\' => ['\\']
  | '\'' => ['\'']
  | '"' => ['"']
  | 'b' => ['\x08']
  | 'f' => ['\x0c']
  | '0' => ['\x00']
  | _ => ['\\', e]

/-- Body of a Python string literal with quote character `q`, after the
opening quote. -/
def litStrBody : Nat → Char → List Char → Option (List Char × List Char)
  | 0, _, _ => Option.none
  | _+1, _, [] => Option.none
  | f+1, q, c :: rest =>
    if c = q then some ([], rest)
    else if c = '\\' then
      match rest with
      | e :: rest2 => (litStrBody f q rest2).map (fun p => (pyEsc e ++ p.1, p.2))
      | [] => Option.none
    else (litStrBody f q rest).map (fun p => (c :: p.1, p.2))

/-- A Python literal number: optional sign and an integer literal (float,
complex and underscore literals are outside the modelled fragment). -/
def litNumber : List Char → Option (PyVal × List Char)
  | '-' :: rest => (parseNumTail rest).map (fun p => (PyVal.int (-(p.1 : Int)), p.2))
  | '+' :: rest => (parseNumTail rest).map (fun p => (PyVal.int ((p.1 : Int)), p.2))
  | cs => (parseNumTail cs).map (fun p => (PyVal.int ((p.1 : Int)), p.2))

mutual

/-- A Python literal (`ast.literal_eval` fragment): dict with string keys,
list, string with either quote, int, `True`/`False`/`None`.  Tuples, sets,
bytes, floats and non-string dict keys are outside the modelled fragment. -/
def litVal : Nat → List Char → Option (PyVal × List Char)
  | 0, _ => Option.none
  | _+1, [] => Option.none
  | f+1, c :: rest =>
    if c = '{' then litDictAfterBrace f rest
    else if c = '[' then (litListAfterBracket f rest).map (fun p => (PyVal.list p.1, p.2))
    else if c = '"' || c = '\'' then
      (litStrBody f c rest).map (fun p => (PyVal.str (String.mk p.1), p.2))
    else if c = 'N' then expectChars ['o', 'n', 'e'] PyVal.none rest
    else if c = 'T' then expectChars ['r', 'u', 'e'] (PyVal.bool true) rest
    else if c = 'F' then expectChars ['a', 'l', 's', 'e'] (PyVal.bool false) rest
    else litNumber (c :: rest)

/-- A Python dict literal body, after the opening brace. -/
def litDictAfterBrace : Nat → List Char → Option (PyVal × List Char)
  | 0, _ => Option.none
  | f+1, cs =>
    match skipWsL cs with
    | '}' :: r => some (PyVal.dict [], r)
    | cs1 => (litMembers f cs1).map (fun p => (PyVal.dict (buildDict p.1), p.2))

/-- One or more `key: value` pairs of a dict literal (string keys), ending at
the closing brace; a trailing comma is allowed. -/
def litMembers : Nat → List Char → Option (List (String × PyVal) × List Char)
  | 0, _ => Option.none
  | f+1, cs =>
    match cs with
    | q :: cs2 =>
      if q = '"' || q = '\'' then
        match litStrBody f q cs2 with
        | Option.none => Option.none
        | some (k, cs3) =>
          match skipWsL cs3 with
          | ':' :: cs4 =>
            match litVal f (skipWsL cs4) with
            | Option.none => Option.none
            | some (v, cs5) =>
              match skipWsL cs5 with
              | ',' :: cs6 =>
                match skipWsL cs6 with
                | '}' :: cs7 => some ([(String.mk k, v)], cs7)
                | cs6' => (litMembers f cs6').map (fun p => ((String.mk k, v) :: p.1, p.2))
              | '}' :: cs6 => some ([(String.mk k, v)], cs6)
              | _ => Option.none
          | _ => Option.none
      else Option.none
    | [] => Option.none

/-- A Python list literal body, after the opening bracket. -/
def litListAfterBracket : Nat → List Char → Option (List PyVal × List Char)
  | 0, _ => Option.none
  | f+1, cs =>
    match skipWsL cs with
    | ']' :: r => some ([], r)
    | cs1 => litElems f cs1

/-- One or more list-literal elements, ending at the closing bracket; a
trailing comma is allowed. -/
def litElems : Nat → List Char → Option (List PyVal × List Char)
  | 0, _ => Option.none
  | f+1, cs =>
    match litVal f cs with
    | Option.none => Option.none
    | some (v, cs2) =>
      match skipWsL cs2 with
      | ',' :: cs3 =>
        match skipWsL cs3 with
        | ']' :: cs4 => some ([v], cs4)
        | cs3' => (litElems f cs3').map (fun p => (v :: p.1, p.2))
      | ']' :: cs3 => some ([v], cs3)
      | _ => Option.none

end

/-- Model of `ast.literal_eval` on the fragment described above. -/
def literalEval (s : String) : Option PyVal :=
  match litVal (s.data.length + 1) (skipWsL s.data) with
  | some (v, rest) => if skipWsL rest = [] then some v else Option.none
  | Option.none => Option.none

example : literalEval "\x7b'sales': '5', 'orders': 1\x7d" =
    some (PyVal.dict [("sales", PyVal.str "5"), ("orders", PyVal.int 1)]) := by rfl

example : literalEval "[None, True, -3,]" =
    some (PyVal.list [PyVal.none, PyVal.bool true, PyVal.int (-3)]) := by rfl

/-- Message of the `RuntimeError` raised on empty stdout. -/
def emptyOutputMsg : String := "stdout이 비어있습니다."

/-- Message of the `RuntimeError` raised when no line parses. -/
def unparseableOutputMsg : String :=
  "stdout에서 파싱 가능한 JSON/dict 객체를 찾지 못했습니다."

/-- Split a character list at newline characters (`str.splitlines`, with the
model restriction described in the header). -/
def splitLinesL : List Char → List (List Char)
  | [] => [[]]
  | c :: rest =>
    if c = '\n' then [] :: splitLinesL rest
    else
      match splitLinesL rest with
      | l :: ls => (c :: l) :: ls
      | [] => [[c]]

/-- The non-blank stripped lines of the captured stdout:
`[ln.strip() for ln in text.splitlines() if ln.strip()]`. -/
def nonBlankLines (text : String) : List String :=
  ((splitLinesL text.data).map (fun l => String.mk (pyStripL l))).filter (fun l => l ≠ "")

/-- The substring matched by `re.search(r"(\{.*\})", ln)`: from the first
opening brace to the last closing brace after it, if any (greedy match). -/
def braceChunk (s : String) : Option String :=
  let after := s.data.dropWhile (fun c => c ≠ '{')
  let chunk := dropTrailing (fun c => c ≠ '}') after
  if chunk = [] then Option.none else some (String.mk chunk)

/-- Python `ln.startswith("\x7b")`. -/
def strStartsWithBrace (s : String) : Bool := s.data.head? == some '{'

/-- Python `ln.endswith("\x7d")`. -/
def strEndsWithBrace (s : String) : Bool := s.data.getLast? == some '}'

/-- Python `c in s` for a single character. -/
def strHasChar (s : String) (c : Char) : Bool := s.data.contains c

/-- The parse cascade applied to one candidate string: strict JSON first, then
the permissive dict-literal reader. -/
def tryParses (s : String) : Option PyVal :=
  match jsonLoads s with
  | some v => some v
  | Option.none => literalEval s

/-- One iteration of the scanning loop of `_extract_last_object`: the
clean-single-line attempt, then (also when that attempt failed to parse) the
brace-substring attempt. -/
def tryLine (ln : String) : Option PyVal :=
  match (if strStartsWithBrace ln && strEndsWithBrace ln then tryParses ln else Option.none) with
  | some v => some v
  | Option.none =>
    if strHasChar ln '{' && strHasChar ln '}' then
      match braceChunk ln with
      | some chunk => tryParses chunk
      | Option.none => Option.none
    else Option.none

/-- The scanning loop of `_extract_last_object` over the reversed lines:
first successful parse wins. -/
def firstParse : List String → Option PyVal
  | [] => Option.none
  | ln :: rest =>
    match tryLine ln with
    | some v => some v
    | Option.none => firstParse rest

/-- Embedding of `_extract_last_object(text)`: split into non-blank stripped lines, fail on
empty output, scan the lines in reverse order for the first parseable object,
fail when none parses.  A raised `RuntimeError` is modelled by `.error` with
its message. -/
def _extract_last_object (text : String) : Except String PyVal :=
  if nonBlankLines text = [] then Except.error emptyOutputMsg
  else
    match firstParse (nonBlankLines text).reverse with
    | some v => Except.ok v
    | Option.none => Except.error unparseableOutputMsg

example :
    _extract_last_object "INFO starting\n\x7b\"sales\": 5, \"orders\": 1\x7d" =
      Except.ok (PyVal.dict [("sales", PyVal.int 5), ("orders", PyVal.int 1)]) := by rfl

example :
    _extract_last_object "\x7b\"a\": 1\x7d\nlog \x7b'b': 2\x7d tail" =
      Except.ok (PyVal.dict [("b", PyVal.int 2)]) := by rfl

example : _extract_last_object "  \n \t\n" = Except.error emptyOutputMsg := by rfl

example : _extract_last_object "no json here" = Except.error unparseableOutputMsg := by rfl

/-- CPython `repr` of a float, for exact decimal fractions: the shortest
decimal form.  Rationals whose denominator divides no power of ten are outside
the modelled fragment (no claim depends on float repr). -/
def floatRepr (q : Rat) : String :=
  match (List.range 40).find? (fun k => (10 ^ k) % q.den = 0) with
  | some k =>
    let scaled : Int := q.num * (((10 ^ k) / q.den : Nat) : Int)
    if k = 0 then toString scaled ++ ".0"
    else
      let ds := toString scaled.natAbs
      let ds := if ds.length ≤ k then String.mk (List.replicate (k + 1 - ds.length) '0') ++ ds else ds
      (if scaled < 0 then "-" else "") ++
        String.mk (ds.data.take (ds.length - k)) ++ "." ++ String.mk (ds.data.drop (ds.length - k))
  | Option.none => toString q.num ++ "/" ++ toString q.den

/-- String.intercalate `", "`. -/
def joinComma (ss : List String) : String := String.intercalate ", " ss

mutual

/-- Python `repr(v)` (string escaping inside reprs is not modelled; no claim
depends on it). -/
def pyRepr : PyVal → String
  | PyVal.none => "None"
  | PyVal.bool b => if b then "True" else "False"
  | PyVal.int n => toString n
  | PyVal.float q => floatRepr q
  | PyVal.str s => "'" ++ s ++ "'"
  | PyVal.list xs => "[" ++ joinComma (pyReprList xs) ++ "]"
  | PyVal.dict es => "\x7b" ++ joinComma (pyReprDict es) ++ "\x7d"

/-- Reprs of list elements. -/
def pyReprList : List PyVal → List String
  | [] => []
  | v :: rest => pyRepr v :: pyReprList rest

/-- Reprs of dict entries. -/
def pyReprDict : List (String × PyVal) → List String
  | [] => []
  | (k, v) :: rest => ("'" ++ k ++ "': " ++ pyRepr v) :: pyReprDict rest

end

/-- Python `str(v)` as used by `_as_int`: `str` of a string is the string
itself, containers print the `repr` of their elements. -/
def pyStr : PyVal → String
  | PyVal.str s => s
  | PyVal.none => "None"
  | PyVal.bool b => if b then "True" else "False"
  | PyVal.int n => toString n
  | PyVal.float q => floatRepr q
  | v => pyRepr v

/-- Body of the `try` block of `_as_int`; `none` models an exception escaping
the body (caught and turned into `0` by `_as_int`).  `isinstance(v, (int,
float))` also matches `bool`.  The regex `[^\d\-]` is modelled over ASCII
decimal digits. -/
def asIntTry (v : PyVal) : Option Int :=
  match v with
  | PyVal.none => some 0
  | PyVal.bool b => some (if b then 1 else 0)
  | PyVal.int n => some n
  | PyVal.float q => some (pyTrunc q)
  | v =>
    let s := pyStrip (pyStr v)
    if s = "" then some 0
    else
      let f := String.mk (s.data.filter (fun c => c.isDigit || c = '-'))
      if f = "" then some 0 else pyIntOfString f

/-- Embedding of `_as_int(v)`: tolerant integer coercion; any exception inside yields `0`. -/
def _as_int (v : PyVal) : Int := (asIntTry v).getD 0

/-- Embedding of `_pick_first(d, keys)`: the value of the first key of `keys` that is
present in `d` with a non-`None` value; `None` when no key qualifies. -/
def _pick_first (es : List (String × PyVal)) (keys : List String) : PyVal :=
  match keys with
  | [] => PyVal.none
  | k :: rest =>
    match pyLookup es k with
    | some PyVal.none => _pick_first es rest
    | some v => v
    | Option.none => _pick_first es rest

/-- One channel's one-day `(sales, orders)` result. -/
structure DailyMetrics where
  sales : Int
  orders : Int
deriving DecidableEq

/-- The two brands' results, as returned by the multi-brand normalizers
(`{"burdenzero": ..., "brainology": ...}`). -/
structure BrandPair (α : Type) where
  burdenzero : α
  brainology : α
deriving DecidableEq

/-- Embedding of `metrics_from_simple(payload)`: `none` models a raised exception
(`AttributeError` when the payload is not a dict, `ValueError`/`TypeError`
from `int()` on a truthy non-numeric field). -/
def metrics_from_simple (payload : PyVal) : Option DailyMetrics :=
  match payload with
  | PyVal.dict es =>
    match pyInt (pyOr (pyGetD es "sales" (PyVal.int 0)) (PyVal.int 0)),
      pyInt (pyOr (pyGetD es "orders" (PyVal.int 0)) (PyVal.int 0)) with
    | some s, some o => some ⟨s, o⟩
    | _, _ => Option.none
  | _ => Option.none

/-- Embedding of `metrics_from_coupang(payload)`: reads `payload["mapped"]["burdenzero"]` /
`["brainology"]`; `none` models a raised exception. -/
def metrics_from_coupang (payload : PyVal) : Option (BrandPair DailyMetrics) :=
  match payload with
  | PyVal.dict es =>
    match pyOr (pyGetD es "mapped" PyVal.none) (PyVal.dict []) with
    | PyVal.dict mes =>
      match pyOr (pyGetD mes "burdenzero" PyVal.none) (PyVal.dict []),
        pyOr (pyGetD mes "brainology" PyVal.none) (PyVal.dict []) with
      | PyVal.dict bes, PyVal.dict bres =>
        match pyInt (pyOr (pyGetD bes "sales" (PyVal.int 0)) (PyVal.int 0)),
          pyInt (pyOr (pyGetD bes "orders" (PyVal.int 0)) (PyVal.int 0)),
          pyInt (pyOr (pyGetD bres "sales" (PyVal.int 0)) (PyVal.int 0)),
          pyInt (pyOr (pyGetD bres "orders" (PyVal.int 0)) (PyVal.int 0)) with
        | some a, some b, some c, some d => some ⟨⟨a, b⟩, ⟨c, d⟩⟩
        | _, _, _, _ => Option.none
      | _, _ => Option.none
    | _ => Option.none
  | _ => Option.none

/-- The spend key aliases of `metrics_from_meta_ads`, in priority order. -/
def spendKeys : List String :=
  ["spend", "amount_spent", "ad_spend", "cost", "spend_krw", "cost_krw"]

/-- The purchases key aliases of `metrics_from_meta_ads`, in priority order. -/
def purchaseKeys : List String :=
  ["purchases", "purchase", "purchase_count", "orders", "results", "conversions"]

/-- Embedding of `parse_brand(d)` inside `metrics_from_meta_ads`. -/
def parse_brand (es : List (String × PyVal)) : Int × Int :=
  (_as_int (_pick_first es spendKeys), _as_int (_pick_first es purchaseKeys))

/-- The container keys checked by `metrics_from_meta_ads`, in priority order. -/
def containerKeys : List String := ["mapped", "brands", "by_brand", "data"]

/-- The container-locating loop of `metrics_from_meta_ads`: the first key whose
value is a dict replaces the root (then `break`); otherwise the root is kept. -/
def findContainer (root : PyVal) : List String → PyVal
  | [] => root
  | k :: rest =>
    match root with
    | PyVal.dict es =>
      match pyLookup es k with
      | some (PyVal.dict d) => PyVal.dict d
      | _ => findContainer root rest
    | _ => findContainer root rest

/-- Embedding of `root.get(k) if isinstance(root, dict) else None`. -/
def safeGet (v : PyVal) (k : String) : PyVal :=
  match v with
  | PyVal.dict es => pyGetD es k PyVal.none
  | _ => PyVal.none

/-- Embedding of `metrics_from_meta_ads(payload)`.  Every path of the source is
exception-free (`_as_int` catches all conversion errors, and every `.get` is
guarded by an `isinstance` check), so the embedding is a total function. -/
def metrics_from_meta_ads (payload : PyVal) : BrandPair (Int × Int) :=
  let root := findContainer payload containerKeys
  let bz0 := safeGet root "burdenzero"
  let br0 := safeGet root "brainology"
  let bz := match bz0 with | PyVal.none => safeGet root "부담제로" | v => v
  let br := match br0 with | PyVal.none => safeGet root "브레인올로지" | v => v
  let bzp := match bz with | PyVal.dict es => parse_brand es | _ => ((0 : Int), (0 : Int))
  let brp := match br with | PyVal.dict es => parse_brand es | _ => ((0 : Int), (0 : Int))
  ⟨bzp, brp⟩

example : metrics_from_simple (PyVal.dict [("sales", PyVal.str "5")]) =
    some ⟨5, 0⟩ := by rfl
example : metrics_from_simple (PyVal.dict [("sales", PyVal.str "abc")]) = Option.none := by rfl
example : _as_int (PyVal.str "688,100 원") = 688100 := by decide
example :
    metrics_from_meta_ads
        (PyVal.dict [("mapped", PyVal.dict [("burdenzero",
          PyVal.dict [("spend", PyVal.str "12,000"), ("purchases", PyVal.str "3")])])]) =
      ⟨(12000, 3), (0, 0)⟩ := by rfl

/-- The fixed spreadsheet id. -/
def SPREADSHEET_ID : String := "1DeSRVN4pWf6rnp1v_FeePUYe1ngjwyq_znXZUzl_kbM"

/-- The burdenzero worksheet name. -/
def SHEET_BURDENZERO : String := "부담제로"

/-- The brainology worksheet name. -/
def SHEET_BRAINOLOGY : String := "뉴턴젤리"

/-- A worksheet, modelled by its title and its column A as reported by
`col_values(1)`. -/
structure Worksheet where
  title : String
  colA : List String
deriving DecidableEq

/-- A spreadsheet cell value as passed to the gspread API. -/
inductive Cell where
  | int (n : Int)
  | str (s : String)
deriving DecidableEq

/-- A write against the spreadsheet (`append_row` or a range `update`), both
issued with `value_input_option="USER_ENTERED"`. -/
inductive WriteOp where
  | appendRow (sheet : String) (values : List Cell)
  | update (sheet : String) (range : String) (values : List Cell)
deriving DecidableEq

/-- The scanning loop of `find_or_create_row_by_date`
(`enumerate(col_a, start=1)` with `(val or "").strip() == date_str`). -/
def findRowIdx : List String → String → Nat → Option Nat
  | [], _, _ => Option.none
  | v :: rest, d, i => if pyStrip v = d then some i else findRowIdx rest d (i + 1)

/-- Embedding of `find_or_create_row_by_date(ws, date_str)`: first row of column A whose
stripped value equals the date, else append a row holding only the date and
return the previous length plus one.  The returned triple is the row index,
the worksheet after the call, and the writes performed. -/
def find_or_create_row_by_date (ws : Worksheet) (date_str : String) :
    Nat × Worksheet × List WriteOp :=
  match findRowIdx ws.colA date_str 1 with
  | some i => (i, ws, [])
  | Option.none =>
    (ws.colA.length + 1, ⟨ws.title, ws.colA ++ [date_str]⟩,
      [WriteOp.appendRow ws.title [Cell.str date_str]])

/-- Modelled from the spec: the row-resolution loop with an EXACT string match
of each column A cell against the date string (spec §4.3: "scan column A
top-to-bottom for an exact string match"), for comparison with the source
behaviour, which strips each cell before comparing. -/
def findRowIdxSpec : List String → String → Nat → Option Nat
  | [], _, _ => Option.none
  | v :: rest, d, i => if v = d then some i else findRowIdxSpec rest d (i + 1)

/-- Modelled from the spec: `find_or_create_row_by_date` as described by the
spec sentence, using exact cell equality. -/
def findOrCreateRowByDateSpec (ws : Worksheet) (date_str : String) :
    Nat × Worksheet × List WriteOp :=
  match findRowIdxSpec ws.colA date_str 1 with
  | some i => (i, ws, [])
  | Option.none =>
    (ws.colA.length + 1, ⟨ws.title, ws.colA ++ [date_str]⟩,
      [WriteOp.appendRow ws.title [Cell.str date_str]])

/-- The `values` list of `write_metrics_row` (columns B–G): a missing channel
object contributes empty strings. -/
def metricsRowValues (cafe24 coupang naver : Option DailyMetrics) : List Cell :=
  [(match cafe24 with | some m => Cell.int m.sales | Option.none => Cell.str ""),
    (match cafe24 with | some m => Cell.int m.orders | Option.none => Cell.str ""),
    (match coupang with | some m => Cell.int m.sales | Option.none => Cell.str ""),
    (match coupang with | some m => Cell.int m.orders | Option.none => Cell.str ""),
    (match naver with | some m => Cell.int m.sales | Option.none => Cell.str ""),
    (match naver with | some m => Cell.int m.orders | Option.none => Cell.str "")]

/-- Embedding of `write_metrics_row`: one `update` of columns B to G of the row. -/
def write_metrics_row (ws : Worksheet) (row : Nat)
    (cafe24 coupang naver : Option DailyMetrics) : WriteOp :=
  WriteOp.update ws.title ("B" ++ toString row ++ ":G" ++ toString row)
    (metricsRowValues cafe24 coupang naver)

/-- The `values` list of `write_meta_row` (columns J–K): `None` becomes the
empty string. -/
def metaRowValues (spend purchases : Option Int) : List Cell :=
  [(match spend with | some n => Cell.int n | Option.none => Cell.str ""),
    (match purchases with | some n => Cell.int n | Option.none => Cell.str "")]

/-- Embedding of `write_meta_row`: one `update` of columns J to K of the row. -/
def write_meta_row (ws : Worksheet) (row : Nat) (spend purchases : Option Int) : WriteOp :=
  WriteOp.update ws.title ("J" ++ toString row ++ ":K" ++ toString row)
    (metaRowValues spend purchases)

/-- Result of one completed scraper subprocess. -/
structure ProcResult where
  returncode : Int
  stdout : String
  stderr : String

/-- Message of the `RuntimeError` raised by `run_script` on non-zero exit. -/
def scriptFailMsg (script_path stdout stderr : String) : String :=
  "스크립트 실패: " ++ script_path ++ "\nSTDOUT:\n" ++ stdout ++ "\nSTDERR:\n" ++ stderr

/-- Embedding of `run_script(script_path, args)`: the completed subprocess is supplied by
the environment as `p` (launching, temp-dir and encoding setup have no
observable effect in the model); non-zero exit raises, zero exit parses the
captured stdout. -/
def run_script (script_path : String) (p : ProcResult) : Except String PyVal :=
  if p.returncode ≠ 0 then Except.error (scriptFailMsg script_path p.stdout p.stderr)
  else _extract_last_object p.stdout

/-- Path of the cafe24 scraper (`os.path.join` modelled with a `/` separator). -/
def cafe24_path : String := "connectors/sales/cafe24.py"

/-- The coupang scraper path. -/
def coupang_path : String := "connectors/sales/coupang.py"

/-- The naver scraper path. -/
def naver_path : String := "connectors/sales/naver.py"

/-- The meta-ads scraper path. -/
def meta_ads_path : String := "connectors/ads/meta_ads.py"

/-- Message of the `RuntimeError` raised by
`gspread_client_from_service_account` when `GOOGLE_SA_JSON` is unset or the
file is missing. -/
def saErrorMsg : String :=
  "GOOGLE_SA_JSON 환경변수에 서비스계정 JSON 경로가 필요합니다. 예) GOOGLE_SA_JSON=C:\\keys\\moncgroup-gsheet-sa.json"

/-- Marker for an uncaught `ValueError`/`TypeError` raised inside a normalizer
(the Python message text itself is not modelled). -/
def valueErrorMsg : String := "ValueError"

/-- The environment `main` runs against: the completed subprocess of each of
the five scraper invocations (in source order), whether the service-account
credential resolves, the two worksheets, and the target date string (the
clock is modelled by supplying `yday_kst_date().isoformat()` as an input). -/
structure Env where
  cafe_bz : ProcResult
  cafe_br : ProcResult
  coupang : ProcResult
  naver : ProcResult
  meta_ads : ProcResult
  sa_ok : Bool
  ws_bz : Worksheet
  ws_br : Worksheet
  date_str : String

/-- Embedding of `main()`: the fixed sequential driver.  The result is the list of
spreadsheet writes performed (in order) and either success or the first
propagated exception; an uncaught exception gives the process a non-zero
exit status. -/
def main' (env : Env) : List WriteOp × Except String Unit :=
  match run_script cafe24_path env.cafe_bz with
  | Except.error e => ([], Except.error e)
  | Except.ok cafe_bz_payload =>
  match run_script cafe24_path env.cafe_br with
  | Except.error e => ([], Except.error e)
  | Except.ok cafe_br_payload =>
  match metrics_from_simple cafe_bz_payload with
  | Option.none => ([], Except.error valueErrorMsg)
  | some cafe_bz =>
  match metrics_from_simple cafe_br_payload with
  | Option.none => ([], Except.error valueErrorMsg)
  | some cafe_br =>
  match run_script coupang_path env.coupang with
  | Except.error e => ([], Except.error e)
  | Except.ok coupang_payload =>
  match metrics_from_coupang coupang_payload with
  | Option.none => ([], Except.error valueErrorMsg)
  | some coupang =>
  match run_script naver_path env.naver with
  | Except.error e => ([], Except.error e)
  | Except.ok naver_payload =>
  match metrics_from_simple naver_payload with
  | Option.none => ([], Except.error valueErrorMsg)
  | some naver_bz =>
  match run_script meta_ads_path env.meta_ads with
  | Except.error e => ([], Except.error e)
  | Except.ok meta_payload =>
  let meta := metrics_from_meta_ads meta_payload
  if env.sa_ok = false then ([], Except.error saErrorMsg)
  else
    let rbz := find_or_create_row_by_date env.ws_bz env.date_str
    let rbr := find_or_create_row_by_date env.ws_br env.date_str
    let w1 := write_metrics_row rbz.2.1 rbz.1 (some cafe_bz) (some coupang.burdenzero) (some naver_bz)
    let w2 := write_metrics_row rbr.2.1 rbr.1 (some cafe_br) (some coupang.brainology) Option.none
    let w3 := write_meta_row rbz.2.1 rbz.1 (some meta.burdenzero.1) (some meta.burdenzero.2)
    let w4 := write_meta_row rbr.2.1 rbr.1 (some meta.brainology.1) (some meta.brainology.2)
    (rbz.2.2 ++ rbr.2.2 ++ [w1, w2, w3, w4], Except.ok ())

theorem dropWhile_head_false {α : Type} (p : α → Bool) (l : List α) (c : α) (t : List α)
    (h : l.dropWhile p = c :: t) : p c = false := by
  induction l with
  | nil => simp at h
  | cons a l ih =>
    rw [List.dropWhile_cons] at h
    split at h
    · exact ih h
    · injection h with h1 _
      subst h1
      simpa using ‹¬ p a = true›

theorem dropTrailing_getLast_false (p : Char → Bool) (l : List Char) (c : Char)
    (h : (dropTrailing p l).getLast? = some c) : p c = false := by
  unfold dropTrailing at h
  rw [List.getLast?_reverse] at h
  cases hd : l.reverse.dropWhile p with
  | nil => rw [hd] at h; simp at h
  | cons a t =>
    rw [hd] at h
    simp only [List.head?_cons, Option.some.injEq] at h
    subst h
    exact dropWhile_head_false p _ _ _ hd

theorem dropTrailing_prefix (p : Char → Bool) (l : List Char) :
    ∃ t, l = dropTrailing p l ++ t := by
  refine ⟨(l.reverse.takeWhile p).reverse, ?_⟩
  unfold dropTrailing
  rw [← List.reverse_append, List.takeWhile_append_dropWhile, List.reverse_reverse]

theorem dropTrailing_head? (p : Char → Bool) (l : List Char) (c : Char)
    (h : (dropTrailing p l).head? = some c) : l.head? = some c := by
  obtain ⟨t, ht⟩ := dropTrailing_prefix p l
  rw [ht]
  cases hd : dropTrailing p l with
  | nil => rw [hd] at h; simp at h
  | cons a s =>
    rw [hd] at h
    simp only [List.head?_cons, Option.some.injEq] at h
    subst h
    simp [hd]

theorem pyStrip_head_not_space (s : String) (c : Char)
    (h : (pyStrip s).data.head? = some c) : isPySpace c = false := by
  have h' : (pyStripL s.data).head? = some c := h
  unfold pyStripL at h'
  have h2 := dropTrailing_head? _ _ _ h'
  cases hd : s.data.dropWhile isPySpace with
  | nil => rw [hd] at h2; simp at h2
  | cons a t =>
    rw [hd] at h2
    simp only [List.head?_cons, Option.some.injEq] at h2
    subst h2
    exact dropWhile_head_false _ _ _ _ hd

theorem pyStrip_last_not_space (s : String) (c : Char)
    (h : (pyStrip s).data.getLast? = some c) : isPySpace c = false :=
  dropTrailing_getLast_false _ _ _ h

theorem filter_dropWhile_eq (p q : Char → Bool) (hq : ∀ c, q c = true → p c = false)
    (l : List Char) : (l.dropWhile q).filter p = l.filter p := by
  conv_rhs => rw [← List.takeWhile_append_dropWhile (p := q) (l := l)]
  rw [List.filter_append]
  have hnil : (l.takeWhile q).filter p = [] :=
    List.filter_eq_nil_iff.mpr (fun a ha => by
      have hqa := List.mem_takeWhile_imp ha
      simp [hq a hqa])
  rw [hnil, List.nil_append]

theorem filter_dropTrailing_eq (p q : Char → Bool) (hq : ∀ c, q c = true → p c = false)
    (l : List Char) : (dropTrailing q l).filter p = l.filter p := by
  unfold dropTrailing
  rw [List.filter_reverse, filter_dropWhile_eq p q hq, List.filter_reverse,
    List.reverse_reverse]

theorem filter_pyStripL (p : Char → Bool) (hp : ∀ c, isPySpace c = true → p c = false)
    (cs : List Char) : (pyStripL cs).filter p = cs.filter p := by
  unfold pyStripL
  rw [filter_dropTrailing_eq p isPySpace hp, filter_dropWhile_eq p isPySpace hp]

theorem endsDecomp_mono {cs cs' r : List Char} {c : Char}
    (h : cs' <:+ cs) (hd : ∃ pre, cs' = pre ++ c :: r) : ∃ pre, cs = pre ++ c :: r := by
  obtain ⟨pre', hpre'⟩ := hd
  obtain ⟨pre0, hpre0⟩ := h
  exact ⟨pre0 ++ pre', by rw [← hpre0, hpre', List.append_assoc]⟩

theorem skipWsL_suffix (cs : List Char) : skipWsL cs <:+ cs :=
  List.dropWhile_suffix _

theorem parseStrBody_suffix : ∀ (f : Nat) (cs : List Char) (s r : List Char),
    parseStrBody f cs = some (s, r) → r <:+ cs := by
  intro f
  induction f with
  | zero => intro cs s r h; simp [parseStrBody] at h
  | succ f ih =>
    intro cs s r h
    cases cs with
    | nil => simp [parseStrBody] at h
    | cons c rest =>
      rw [parseStrBody.eq_def] at h
      simp only [] at h
      split at h
      · injection h with h1
        injection h1 with _ h2
        subst h2
        exact List.suffix_cons c rest
      · split at h
        · split at h
          · split at h
            · rw [Option.map_eq_some'] at h
              obtain ⟨⟨s', r'⟩, hp, heq⟩ := h
              injection heq with _ h2
              subst h2
              exact (ih _ _ _ hp).trans ⟨[c, 'u', _, _, _, _], rfl⟩
            · simp at h
          · split at h
            · rw [Option.map_eq_some'] at h
              obtain ⟨⟨s', r'⟩, hp, heq⟩ := h
              injection heq with _ h2
              subst h2
              exact (ih _ _ _ hp).trans ⟨[c, _], rfl⟩
            · simp at h
          · simp at h
        · split at h
          · simp at h
          · rw [Option.map_eq_some'] at h
            obtain ⟨⟨s', r'⟩, hp, heq⟩ := h
            injection heq with _ h2
            subst h2
            exact (ih _ _ _ hp).trans (List.suffix_cons c rest)

theorem parseNumTail_suffix (cs : List Char) (n : Nat) (r : List Char)
    (h : parseNumTail cs = some (n, r)) : r <:+ cs := by
  unfold parseNumTail at h
  split at h
  · split at h
    · split at h
      · simp at h
      · injection h with h1
        injection h1 with _ h2
        subst h2
        exact List.suffix_cons _ _
    · injection h with h1
      injection h1 with _ h2
      subst h2
      exact List.suffix_cons _ _
  · split at h
    · split at h
      · split at h
        · simp at h
        · injection h with h1
          injection h1 with _ h2
          subst h2
          exact (List.dropWhile_suffix _).trans (List.suffix_cons _ _)
      · injection h with h1
        injection h1 with _ h2
        subst h2
        exact (List.dropWhile_suffix _).trans (List.suffix_cons _ _)
    · simp at h
  · simp at h

theorem parseNumber_shape (cs : List Char) (v : PyVal) (r : List Char)
    (h : parseNumber cs = some (v, r)) : (∃ n : Int, v = PyVal.int n) ∧ r <:+ cs := by
  unfold parseNumber at h
  split at h
  · rw [Option.map_eq_some'] at h
    obtain ⟨⟨m, r'⟩, hp, heq⟩ := h
    injection heq with h1 h2
    subst h1; subst h2
    exact ⟨⟨_, rfl⟩, (parseNumTail_suffix _ _ _ hp).trans (List.suffix_cons _ _)⟩
  · rw [Option.map_eq_some'] at h
    obtain ⟨⟨m, r'⟩, hp, heq⟩ := h
    injection heq with h1 h2
    subst h1; subst h2
    exact ⟨⟨_, rfl⟩, parseNumTail_suffix _ _ _ hp⟩

theorem expectChars_spec (lit : List Char) (v w : PyVal) (cs r : List Char)
    (h : expectChars lit v cs = some (w, r)) : w = v ∧ r <:+ cs := by
  unfold expectChars at h
  split at h
  · injection h with h1
    injection h1 with h2 h3
    subst h2; subst h3
    exact ⟨rfl, List.drop_suffix _ _⟩
  · simp at h

theorem membersChain {cs2 cs3 cs4 cs5 : List Char} {c : Char} {r : List Char}
    (h23 : cs3 <:+ cs2)
    (hskip3 : skipWsL cs3 = c :: cs4)
    (h45 : cs5 <:+ skipWsL cs4)
    (e5 : ∃ pre, skipWsL cs5 = pre ++ '}' :: r) :
    ∃ pre, cs2 = pre ++ '}' :: r := by
  have e5' := endsDecomp_mono (skipWsL_suffix cs5) e5
  have e4v := endsDecomp_mono h45 e5'
  have e4 := endsDecomp_mono (skipWsL_suffix cs4) e4v
  have e3' : ∃ pre, skipWsL cs3 = pre ++ '}' :: r := by
    obtain ⟨p, hp⟩ := e4
    exact ⟨c :: p, by rw [hskip3, hp]; rfl⟩
  have e3 := endsDecomp_mono (skipWsL_suffix cs3) e3'
  exact endsDecomp_mono h23 e3


theorem jsonParseFacts : ∀ f : Nat,
    (∀ cs v r, parseVal f cs = some (v, r) → r <:+ cs)
    ∧ (∀ cs es r, parseObjAfterBrace f cs = some (es, r) → ∃ pre, cs = pre ++ '}' :: r)
    ∧ (∀ cs es r, parseMembers f cs = some (es, r) → ∃ pre, cs = pre ++ '}' :: r)
    ∧ (∀ cs xs r, parseArrAfterBracket f cs = some (xs, r) → ∃ pre, cs = pre ++ ']' :: r)
    ∧ (∀ cs xs r, parseElems f cs = some (xs, r) → ∃ pre, cs = pre ++ ']' :: r) := by
  intro f
  induction f with
  | zero =>
    refine ⟨?_, ?_, ?_, ?_, ?_⟩ <;> intro cs a r h <;>
      simp [parseVal, parseObjAfterBrace, parseMembers, parseArrAfterBracket, parseElems] at h
  | succ f ih =>
    obtain ⟨ihV, ihO, ihM, ihA, ihE⟩ := ih
    refine ⟨?_, ?_, ?_, ?_, ?_⟩
    · intro cs v r h
      cases cs with
      | nil => simp [parseVal] at h
      | cons c rest =>
        rw [parseVal.eq_def] at h
        simp only [] at h
        split at h
        · rw [Option.map_eq_some'] at h
          obtain ⟨⟨ps, r'⟩, hp, heq⟩ := h
          injection heq with h1 h2
          subst h2
          obtain ⟨pre, hpre⟩ := ihO _ _ _ hp
          exact ⟨c :: (pre ++ ['}']), by rw [hpre]; simp⟩
        · split at h
          · rw [Option.map_eq_some'] at h
            obtain ⟨⟨ps, r'⟩, hp, heq⟩ := h
            injection heq with h1 h2
            subst h2
            obtain ⟨pre, hpre⟩ := ihA _ _ _ hp
            exact ⟨c :: (pre ++ [']']), by rw [hpre]; simp⟩
          · split at h
            · rw [Option.map_eq_some'] at h
              obtain ⟨⟨s', r'⟩, hp, heq⟩ := h
              injection heq with h1 h2
              subst h2
              exact (parseStrBody_suffix _ _ _ _ hp).trans (List.suffix_cons c rest)
            · split at h
              · exact ((expectChars_spec _ _ _ _ _ h).2).trans (List.suffix_cons c rest)
              · split at h
                · exact ((expectChars_spec _ _ _ _ _ h).2).trans (List.suffix_cons c rest)
                · split at h
                  · exact ((expectChars_spec _ _ _ _ _ h).2).trans (List.suffix_cons c rest)
                  · exact (parseNumber_shape _ _ _ h).2
    · intro cs es r h
      rw [parseObjAfterBrace.eq_def] at h
      simp only [] at h
      split at h
      · simp at h
      · rename_i c r1 hskip
        split at h
        · rename_i hc
          subst hc
          injection h with h1
          injection h1 with h2 h3
          subst h3
          exact endsDecomp_mono (skipWsL_suffix cs) ⟨[], by rw [hskip]; rfl⟩
        · obtain ⟨pre, hpre⟩ := ihM _ _ _ h
          exact endsDecomp_mono (skipWsL_suffix cs) ⟨pre, by rw [hskip, hpre]⟩
    · intro cs es r h
      cases cs with
      | nil => simp [parseMembers] at h
      | cons q cs2 =>
        rw [parseMembers.eq_def] at h
        simp only [] at h
        split at h
        · rename_i hq
          subst hq
          split at h
          · simp at h
          · rename_i k cs3 hsb
            split at h
            · simp at h
            · rename_i c cs4 hskip3
              split at h
              · rename_i hc
                split at h
                · simp at h
                · rename_i v cs5 hv
                  split at h
                  · simp at h
                  · rename_i c2 cs6 hskip5
                    split at h
                    · rename_i hc2
                      subst hc2
                      rw [Option.map_eq_some'] at h
                      obtain ⟨⟨ps, r'⟩, hp, heq⟩ := h
                      injection heq with h1 h2
                      subst h2
                      obtain ⟨pre6, hpre6⟩ := ihM _ _ _ hp
                      have e5 : ∃ pre, skipWsL cs5 = pre ++ '}' :: r' := by
                        obtain ⟨p6, hp6⟩ := endsDecomp_mono (skipWsL_suffix cs6) ⟨pre6, hpre6⟩
                        exact ⟨',' :: p6, by rw [hskip5, hp6]; rfl⟩
                      obtain ⟨p2, hp2⟩ :=
                        membersChain (parseStrBody_suffix _ _ _ _ hsb) hskip3 (ihV _ _ _ hv) e5
                      exact ⟨'"' :: p2, by rw [hp2]; rfl⟩
                    · split at h
                      · rename_i hc2
                        subst hc2
                        injection h with h1
                        injection h1 with h2 h3
                        subst h3
                        have e5 : ∃ pre, skipWsL cs5 = pre ++ '}' :: cs6 := ⟨[], by rw [hskip5]; rfl⟩
                        obtain ⟨p2, hp2⟩ :=
                          membersChain (parseStrBody_suffix _ _ _ _ hsb) hskip3 (ihV _ _ _ hv) e5
                        exact ⟨'"' :: p2, by rw [hp2]; rfl⟩
                      · simp at h
              · simp at h
        · simp at h
    · intro cs xs r h
      rw [parseArrAfterBracket.eq_def] at h
      simp only [] at h
      split at h
      · simp at h
      · rename_i c r1 hskip
        split at h
        · rename_i hc
          subst hc
          injection h with h1
          injection h1 with h2 h3
          subst h3
          exact endsDecomp_mono (skipWsL_suffix cs) ⟨[], by rw [hskip]; rfl⟩
        · obtain ⟨pre, hpre⟩ := ihE _ _ _ h
          exact endsDecomp_mono (skipWsL_suffix cs) ⟨pre, by rw [hskip, hpre]⟩
    · intro cs xs r h
      rw [parseElems.eq_def] at h
      simp only [] at h
      split at h
      · simp at h
      · rename_i v cs2 hv
        split at h
        · simp at h
        · rename_i c cs3 hskip2
          split at h
          · rename_i hc
            subst hc
            rw [Option.map_eq_some'] at h
            obtain ⟨⟨ps, r'⟩, hp, heq⟩ := h
            injection heq with h1 h2
            subst h2
            obtain ⟨pre3, hpre3⟩ := ihE _ _ _ hp
            have e2 : ∃ pre, skipWsL cs2 = pre ++ ']' :: r' := by
              obtain ⟨p3, hp3⟩ := endsDecomp_mono (skipWsL_suffix cs3) ⟨pre3, hpre3⟩
              exact ⟨',' :: p3, by rw [hskip2, hp3]; rfl⟩
            exact endsDecomp_mono (ihV _ _ _ hv)
              (endsDecomp_mono (skipWsL_suffix cs2) e2)
          · split at h
            · rename_i hc
              subst hc
              injection h with h1
              injection h1 with h2 h3
              subst h3
              have e2 : ∃ pre, skipWsL cs2 = pre ++ ']' :: cs3 := ⟨[], by rw [hskip2]; rfl⟩
              exact endsDecomp_mono (ihV _ _ _ hv)
                (endsDecomp_mono (skipWsL_suffix cs2) e2)
            · simp at h

theorem jsonWs_imp_pySpace (c : Char) (h : isJsonWs c = true) : isPySpace c = true := by
  simp only [isJsonWs, Bool.or_eq_true, decide_eq_true_eq] at h
  rcases h with ((rfl | rfl) | rfl) | rfl <;> rfl

theorem parseVal_dict_shape (f : Nat) (cs : List Char) (es : List (String × PyVal)) (r : List Char)
    (h : parseVal f cs = some (PyVal.dict es, r)) :
    ∃ f' t ps, f = f' + 1 ∧ cs = '{' :: t ∧ parseObjAfterBrace f' t = some (ps, r) := by
  cases f with
  | zero => simp [parseVal] at h
  | succ f =>
    cases cs with
    | nil => simp [parseVal] at h
    | cons c rest =>
      rw [parseVal.eq_def] at h
      simp only [] at h
      split at h
      · rename_i hc
        subst hc
        rw [Option.map_eq_some'] at h
        obtain ⟨⟨ps, r'⟩, hp, heq⟩ := h
        injection heq with h1 h2
        subst h2
        exact ⟨f, rest, ps, rfl, rfl, hp⟩
      · split at h
        · rw [Option.map_eq_some'] at h
          obtain ⟨⟨ps, r'⟩, hp, heq⟩ := h
          injection heq with h1 h2
          exact absurd h1 (by simp)
        · split at h
          · rw [Option.map_eq_some'] at h
            obtain ⟨⟨s', r'⟩, hp, heq⟩ := h
            injection heq with h1 h2
            exact absurd h1 (by simp)
          · split at h
            · exact absurd (expectChars_spec _ _ _ _ _ h).1 (by simp)
            · split at h
              · exact absurd (expectChars_spec _ _ _ _ _ h).1 (by simp)
              · split at h
                · exact absurd (expectChars_spec _ _ _ _ _ h).1 (by simp)
                · obtain ⟨⟨n, hn⟩, _⟩ := parseNumber_shape _ _ _ h
                  exact absurd hn (by simp)

theorem jsonLoads_dict_braces (s : String) (es : List (String × PyVal))
    (hh : ∀ c, s.data.head? = some c → isPySpace c = false)
    (hl : ∀ c, s.data.getLast? = some c → isPySpace c = false)
    (h : jsonLoads s = some (PyVal.dict es)) :
    strStartsWithBrace s = true ∧ strEndsWithBrace s = true := by
  unfold jsonLoads at h
  split at h
  · rename_i v rest hp
    split at h
    · rename_i hrest
      injection h with h1
      subst h1
      have hskipid : skipWsL s.data = s.data := by
        cases hd : s.data with
        | nil => simp [skipWsL]
        | cons c t =>
          have hps : isPySpace c = false := hh c (by rw [hd]; rfl)
          have hjs : isJsonWs c = false := by
            cases hjs : isJsonWs c
            · rfl
            · exact absurd (jsonWs_imp_pySpace c hjs) (by simp [hps])
          simp [skipWsL, List.dropWhile_cons, hjs]
      rw [hskipid] at hp
      obtain ⟨f', t, ps, hf, hcs, hob⟩ := parseVal_dict_shape _ _ _ _ hp
      obtain ⟨pre, hpre⟩ := (jsonParseFacts f').2.1 _ _ _ hob
      have hrestnil : rest = [] := by
        cases hr : rest with
        | nil => rfl
        | cons a rs =>
          have hall : ∀ x ∈ rest, isJsonWs x = true := List.dropWhile_eq_nil_iff.mp hrest
          have hz : ∃ z, rest.getLast? = some z := by
            rw [hr]
            cases hzz : (a :: rs).getLast? with
            | some z => exact ⟨z, rfl⟩
            | none => simp at hzz
          obtain ⟨z, hz⟩ := hz
          have hzs : isJsonWs z = true := by
            have hmem : z ∈ rest := by
              have hsplit := List.dropLast_append_getLast? z hz
              rw [← hsplit]
              simp
            exact hall z hmem
          have hsl : s.data.getLast? = some z := by
            rw [hcs, hpre]
            have hform : ('{' :: (pre ++ '}' :: rest)) = (('{' :: pre) ++ ['}']) ++ rest := by
              simp
            rw [hform, List.getLast?_append, hz]
            rfl
          have := hl z hsl
          exact absurd (jsonWs_imp_pySpace z hzs) (by simp [this])
      subst hrestnil
      constructor
      · unfold strStartsWithBrace
        rw [hcs]
        rfl
      · unfold strEndsWithBrace
        rw [hcs, hpre]
        have hform : ('{' :: (pre ++ '}' :: ([] : List Char))) = ('{' :: pre) ++ ['}'] := by simp
        rw [hform, List.getLast?_concat]
        rfl
    · simp at h
  · simp at h

theorem nonBlankLines_stripped (text : String) (ln : String) (hmem : ln ∈ nonBlankLines text) :
    (∀ c, ln.data.head? = some c → isPySpace c = false)
    ∧ (∀ c, ln.data.getLast? = some c → isPySpace c = false) := by
  unfold nonBlankLines at hmem
  have h1 := List.mem_filter.mp hmem
  obtain ⟨raw, hraw, heq⟩ := List.mem_map.mp h1.1
  subst heq
  constructor
  · intro c hc
    exact pyStrip_head_not_space (String.mk raw) c hc
  · intro c hc
    exact pyStrip_last_not_space (String.mk raw) c hc

theorem tryLine_json_dict (ln : String) (es : List (String × PyVal))
    (hh : ∀ c, ln.data.head? = some c → isPySpace c = false)
    (hl : ∀ c, ln.data.getLast? = some c → isPySpace c = false)
    (h : jsonLoads ln = some (PyVal.dict es)) :
    tryLine ln = some (PyVal.dict es) := by
  obtain ⟨hs, he⟩ := jsonLoads_dict_braces ln es hh hl h
  simp [tryLine, tryParses, hs, he, h]

/-- C2: for every stdout text whose final non-blank line is a valid
single-line JSON object (within the modelled JSON fragment), object
extraction returns exactly that object, ignoring any earlier log lines or
earlier objects.  The scanning order (reverse), the strict-then-permissive
parse cascade, and the first-brace-to-last-brace substring retry are embodied
in `_extract_last_object` / `tryLine` above, which mirror the source. -/
theorem extraction_returns_final_json_object (text ln : String) (es : List (String × PyVal))
    (hlast : (nonBlankLines text).getLast? = some ln)
    (hjson : jsonLoads ln = some (PyVal.dict es)) :
    _extract_last_object text = Except.ok (PyVal.dict es) := by
  have hne : nonBlankLines text ≠ [] := by
    intro h0
    rw [h0] at hlast
    simp at hlast
  have hmem : ln ∈ nonBlankLines text := by
    have hsplit := List.dropLast_append_getLast? ln hlast
    rw [← hsplit]
    simp
  obtain ⟨hh, hl⟩ := nonBlankLines_stripped text ln hmem
  have htl := tryLine_json_dict ln es hh hl hjson
  have hrev : (nonBlankLines text).reverse
      = ln :: (nonBlankLines text).dropLast.reverse := by
    conv_lhs => rw [← List.dropLast_append_getLast? ln hlast]
    rw [List.reverse_append]
    rfl
  unfold _extract_last_object
  rw [if_neg hne, hrev]
  simp [firstParse, htl]

/-- Witness for the theorem of C2 at a concrete two-line stdout. -/
theorem extraction_returns_final_json_object_witness :
    _extract_last_object "INFO starting\n\x7b\"sales\": 5, \"orders\": 1\x7d" =
      Except.ok (PyVal.dict [("sales", PyVal.int 5), ("orders", PyVal.int 1)]) :=
  extraction_returns_final_json_object _ "\x7b\"sales\": 5, \"orders\": 1\x7d" _
    (by rfl) (by rfl)

theorem firstParse_none_iff (ls : List String) :
    firstParse ls = Option.none ↔ ∀ ln ∈ ls, tryLine ln = Option.none := by
  induction ls with
  | nil => simp [firstParse]
  | cons a ls ih =>
    rw [firstParse]
    cases ht : tryLine a with
    | some v => simp [List.forall_mem_cons, ht]
    | none => simp [List.forall_mem_cons, ht, ih]

/-- Naive substring containment over the modelled strings, used to state
whether an error message includes a given text. -/
def listContainsSub (hay needle : List Char) : Bool :=
  match hay with
  | [] => needle.isEmpty
  | c :: t => needle.isPrefixOf (c :: t) || listContainsSub t needle

/-- Whether `needle` occurs as a contiguous substring of `hay`. -/
def strContains (hay needle : String) : Bool := listContainsSub hay.data needle.data

/-- C8 (amended): `_extract_last_object` fails with the empty-output
`RuntimeError` exactly when the input has no non-blank line, fails with the
unparseable-output `RuntimeError` exactly when there are non-blank lines but
none yields a parseable object, and succeeds exactly when some non-blank line
yields a parseable object. -/
theorem extract_error_characterization (text : String) :
    (_extract_last_object text = Except.error emptyOutputMsg ↔ nonBlankLines text = [])
    ∧ (_extract_last_object text = Except.error unparseableOutputMsg ↔
        (nonBlankLines text ≠ [] ∧ ∀ ln ∈ nonBlankLines text, tryLine ln = Option.none))
    ∧ ((∃ v, _extract_last_object text = Except.ok v) ↔
        (∃ ln ∈ nonBlankLines text, (tryLine ln).isSome = true)) := by
  have hmsg : emptyOutputMsg ≠ unparseableOutputMsg := by decide
  have hrevmem : ∀ ln : String,
      ln ∈ (nonBlankLines text).reverse ↔ ln ∈ nonBlankLines text :=
    fun ln => List.mem_reverse
  unfold _extract_last_object
  by_cases hnil : nonBlankLines text = []
  · rw [if_pos hnil]
    refine ⟨by simp [hnil], by simp [hnil, hmsg], by simp [hnil]⟩
  · rw [if_neg hnil]
    cases hfp : firstParse (nonBlankLines text).reverse with
    | some v =>
      have hex : ∃ ln ∈ nonBlankLines text, (tryLine ln).isSome = true := by
        by_contra hcon
        push_neg at hcon
        have hall : ∀ ln ∈ (nonBlankLines text).reverse, tryLine ln = Option.none := by
          intro ln hln
          have hns := hcon ln ((hrevmem ln).mp hln)
          cases htl : tryLine ln with
          | none => rfl
          | some w => rw [htl] at hns; simp at hns
        rw [(firstParse_none_iff _).mpr hall] at hfp
        simp at hfp
      refine ⟨by simp [hnil], ?_, by simp [hex]⟩
      constructor
      · intro h
        simp at h
      · rintro ⟨-, hall⟩
        have hall' : ∀ ln ∈ (nonBlankLines text).reverse, tryLine ln = Option.none :=
          fun ln hln => hall ln ((hrevmem ln).mp hln)
        rw [(firstParse_none_iff _).mpr hall'] at hfp
        simp at hfp
    | none =>
      have hall : ∀ ln ∈ nonBlankLines text, tryLine ln = Option.none := by
        intro ln hln
        exact (firstParse_none_iff _).mp hfp ln ((hrevmem ln).mpr hln)
      refine ⟨?_, ⟨fun _ => ⟨hnil, hall⟩, fun _ => rfl⟩, ?_⟩
      · constructor
        · intro h
          injection h with h1
          exact absurd h1.symm hmsg
        · intro h
          exact absurd h hnil
      · constructor
        · rintro ⟨v, hv⟩
          simp at hv
        · rintro ⟨ln, hln, hsome⟩
          rw [hall ln hln] at hsome
          simp at hsome

/-- Witness for the theorem of C8 on an empty stdout and on pure log output. -/
theorem extract_error_characterization_witness :
    _extract_last_object " \n\t\n" = Except.error emptyOutputMsg
    ∧ _extract_last_object "plain log output" = Except.error unparseableOutputMsg :=
  ⟨(extract_error_characterization " \n\t\n").1.mpr (by rfl),
    (extract_error_characterization "plain log output").2.1.mpr
      ⟨by decide, by
        intro ln hln
        have hlist : nonBlankLines "plain log output" = ["plain log output"] := by rfl
        rw [hlist] at hln
        have hln' : ln = "plain log output" := by simpa using hln
        subst hln'
        rfl⟩⟩

/-- Counterexample to C8 as stated: on stdout that parses nowhere, the raised
unparseable-output `RuntimeError` does NOT include the raw input text (the
source raises a fixed message without interpolating the text). -/
theorem unparseable_error_lacks_raw_text :
    _extract_last_object "no json here xyzzy" = Except.error unparseableOutputMsg
    ∧ strContains unparseableOutputMsg "no json here xyzzy" = false :=
  ⟨by rfl, by decide⟩

/-- Modelled from the spec (§4.2): numeric coercion keeps only digit and
minus-sign characters, then converts to an integer; an empty or unparseable
result yields `0`. -/
def specNumericCoercion (s : String) : Int :=
  match pyIntOfString (String.mk (s.data.filter (fun c => c.isDigit || c = '-'))) with
  | some n => n
  | Option.none => 0

theorem pySpace_not_digit_minus (c : Char) (hc : isPySpace c = true) :
    (c.isDigit || decide (c = '-')) = false := by
  simp only [isPySpace, Bool.or_eq_true, decide_eq_true_eq] at hc
  rcases hc with ((((rfl | rfl) | rfl) | rfl) | rfl) | rfl <;> rfl

theorem asint_str_spec (s : String) : _as_int (PyVal.str s) = specNumericCoercion s := by
  have hfe : (pyStrip s).data.filter (fun c => c.isDigit || decide (c = '-'))
      = s.data.filter (fun c => c.isDigit || decide (c = '-')) :=
    filter_pyStripL _ pySpace_not_digit_minus s.data
  by_cases h1 : pyStrip s = ""
  · have hfil : s.data.filter (fun c => c.isDigit || decide (c = '-')) = [] := by
      rw [← hfe, h1]
      rfl
    have lhs0 : _as_int (PyVal.str s) = 0 := by
      simp [_as_int, asIntTry, pyStr, h1]
    have rhs0 : specNumericCoercion s = 0 := by
      unfold specNumericCoercion
      rw [hfil]
      rfl
    rw [lhs0, rhs0]
  · by_cases h2 :
      String.mk ((pyStrip s).data.filter (fun c => c.isDigit || decide (c = '-'))) = ""
    · have hfil : s.data.filter (fun c => c.isDigit || decide (c = '-')) = [] := by
        rw [← hfe]
        simpa using congrArg String.data h2
      have lhs0 : _as_int (PyVal.str s) = 0 := by
        simp [_as_int, asIntTry, pyStr, h1, h2]
      have rhs0 : specNumericCoercion s = 0 := by
        unfold specNumericCoercion
        rw [hfil]
        rfl
      rw [lhs0, rhs0]
    · have lhs1 : _as_int (PyVal.str s) =
          (pyIntOfString
            (String.mk (s.data.filter (fun c => c.isDigit || decide (c = '-'))))).getD 0 := by
        simp only [_as_int, asIntTry, pyStr]
        rw [if_neg h1, if_neg h2, hfe]
      unfold specNumericCoercion
      rw [lhs1]
      cases h3 : pyIntOfString
          (String.mk (s.data.filter (fun c => c.isDigit || decide (c = '-')))) <;>
        simp [h3]

/-- C3: numeric coercion agrees with the spec description (keep digits and
minus signs, convert, default `0`), and satisfies the spec's examples. -/
theorem numeric_coercion_matches_spec :
    (∀ s : String, _as_int (PyVal.str s) = specNumericCoercion s)
    ∧ _as_int PyVal.none = 0
    ∧ _as_int (PyVal.str "688,100 원") = 688100
    ∧ _as_int (PyVal.str "19건") = 19
    ∧ _as_int (PyVal.str "") = 0
    ∧ _as_int (PyVal.str "abc") = 0 :=
  ⟨asint_str_spec, rfl, by decide, by decide, by rfl, by rfl⟩

/-- Witness for the theorem of C3 at a concrete input. -/
theorem numeric_coercion_matches_spec_witness :
    _as_int (PyVal.str "7 units") = specNumericCoercion "7 units" :=
  numeric_coercion_matches_spec.1 "7 units"

/-- C10: on decimal-formatted strings the coercion concatenates all digits
rather than rounding; a float input is truncated toward zero; a minus sign
survives the filter, so negative results are possible. -/
theorem coercion_concatenates_digits_and_truncates_floats :
    _as_int (PyVal.str "1.5") = 15
    ∧ _as_int (PyVal.str "12,000.50") = 1200050
    ∧ _as_int (PyVal.float (mkRat 129 10)) = 12
    ∧ _as_int (PyVal.str "-5") = -5
    ∧ _as_int (PyVal.str "가-3") = -3 :=
  ⟨by decide, by decide, by decide, by decide, by decide⟩

/-- Counterexample to C1 as stated: `metrics_from_simple` raises (`none`
models the uncaught `ValueError` of `int("abc")`) on a payload whose `sales`
value is a truthy non-numeric string, so normalization is not raise-free. -/
theorem metrics_from_simple_raises_on_nonnumeric :
    metrics_from_simple (PyVal.dict [("sales", PyVal.str "abc")]) = Option.none := by rfl

/-- C1 (amended): `metrics_from_meta_ads` never raises and defaults every
unreadable field to 0 — also on arbitrary non-dict payloads and unreadable
nested fields — while `metrics_from_simple` and `metrics_from_coupang`
default missing, `None` and falsy fields to 0 (raising only on truthy values
`int()` cannot convert, and on truthy non-dict nested containers). -/
theorem normalizers_default_to_zero :
    (∀ s : String, metrics_from_meta_ads (PyVal.str s) = ⟨(0, 0), (0, 0)⟩)
    ∧ metrics_from_meta_ads
        (PyVal.dict [("mapped", PyVal.str "x"), ("burdenzero", PyVal.str "y")]) =
        ⟨(0, 0), (0, 0)⟩
    ∧ metrics_from_simple (PyVal.dict []) = some ⟨0, 0⟩
    ∧ metrics_from_simple (PyVal.dict [("sales", PyVal.none), ("orders", PyVal.str "")]) =
        some ⟨0, 0⟩
    ∧ metrics_from_coupang (PyVal.dict []) = some ⟨⟨0, 0⟩, ⟨0, 0⟩⟩
    ∧ metrics_from_coupang (PyVal.dict [("mapped", PyVal.dict [("burdenzero", PyVal.none)])]) =
        some ⟨⟨0, 0⟩, ⟨0, 0⟩⟩ :=
  ⟨fun _ => rfl, rfl, rfl, rfl, rfl, rfl⟩

/-- Witness for the theorem of C1 at a concrete garbage payload. -/
theorem normalizers_default_to_zero_witness :
    metrics_from_meta_ads (PyVal.str "junk") = ⟨(0, 0), (0, 0)⟩ :=
  normalizers_default_to_zero.1 "junk"

/-- A key that `_pick_first` skips: absent, or bound to `None`. -/
def keyUnusable (es : List (String × PyVal)) (k : String) : Prop :=
  pyLookup es k = Option.none ∨ pyLookup es k = some PyVal.none

theorem pick_first_first_usable (es : List (String × PyVal)) (ks1 ks2 : List String)
    (k : String) (v : PyVal) (h1 : ∀ k' ∈ ks1, keyUnusable es k')
    (h2 : pyLookup es k = some v) (h3 : v ≠ PyVal.none) :
    _pick_first es (ks1 ++ k :: ks2) = v := by
  induction ks1 with
  | nil =>
    simp only [List.nil_append, _pick_first]
    rw [h2]
    cases v <;> first | exact absurd rfl h3 | rfl
  | cons k' ks1 ih =>
    simp only [List.cons_append, _pick_first]
    have hu := h1 k' (by simp)
    rcases hu with hnone | hsomeNone
    · rw [hnone]
      exact ih (fun x hx => h1 x (by simp [hx]))
    · rw [hsomeNone]
      exact ih (fun x hx => h1 x (by simp [hx]))

theorem meta_ads_korean_fallback (es d : List (String × PyVal))
    (h1 : pyLookup es "burdenzero" = Option.none)
    (h2 : pyLookup es "부담제로" = some (PyVal.dict d)) :
    (metrics_from_meta_ads (PyVal.dict [("mapped", PyVal.dict es)])).burdenzero =
      parse_brand d := by
  have hroot : findContainer (PyVal.dict [("mapped", PyVal.dict es)]) containerKeys
      = PyVal.dict es := by rfl
  simp [metrics_from_meta_ads, hroot, safeGet, pyGetD, h1, h2]

/-- C4: field aliases are read through `_pick_first` in fixed priority order
(first usable key wins), a native-language brand key is used when the
canonical key is absent, the container keys are checked in the order mapped,
brands, by_brand, data, and the spec's example payload normalizes as stated. -/
theorem meta_ads_alias_and_container_priority :
    (∀ es ks1 ks2 k v, (∀ k' ∈ ks1, keyUnusable es k') → pyLookup es k = some v →
      v ≠ PyVal.none → _pick_first es (ks1 ++ k :: ks2) = v)
    ∧ (∀ es d, pyLookup es "burdenzero" = Option.none →
        pyLookup es "부담제로" = some (PyVal.dict d) →
        (metrics_from_meta_ads (PyVal.dict [("mapped", PyVal.dict es)])).burdenzero =
          parse_brand d)
    ∧ metrics_from_meta_ads (PyVal.dict
        [("brands", PyVal.dict [("burdenzero", PyVal.dict [("spend", PyVal.int 1)])]),
          ("mapped", PyVal.dict [("burdenzero", PyVal.dict [("spend", PyVal.int 2)])])]) =
        ⟨(2, 0), (0, 0)⟩
    ∧ metrics_from_meta_ads (PyVal.dict
        [("data", PyVal.dict [("burdenzero", PyVal.dict [("spend", PyVal.int 3)])]),
          ("by_brand", PyVal.dict [("burdenzero", PyVal.dict [("spend", PyVal.int 4)])])]) =
        ⟨(4, 0), (0, 0)⟩
    ∧ parse_brand [("cost", PyVal.str "5"), ("spend", PyVal.str "3")] = (3, 0)
    ∧ parse_brand [("orders", PyVal.int 7), ("purchases", PyVal.int 2)] = (0, 2)
    ∧ metrics_from_meta_ads (PyVal.dict [("mapped", PyVal.dict [("burdenzero",
        PyVal.dict [("spend", PyVal.str "12,000"), ("purchases", PyVal.str "3")])])]) =
        ⟨(12000, 3), (0, 0)⟩ :=
  ⟨pick_first_first_usable, meta_ads_korean_fallback, by rfl, by rfl, by rfl, by rfl, by rfl⟩

/-- Witness for the theorem of C4: the spend alias priority at a concrete
dictionary where only the lower-priority alias is present. -/
theorem meta_ads_alias_priority_witness :
    _pick_first [("cost", PyVal.str "9")] ["spend", "cost"] = PyVal.str "9" :=
  meta_ads_alias_and_container_priority.1 [("cost", PyVal.str "9")] ["spend"] [] "cost"
    (PyVal.str "9")
    (fun k' hk' => by
      simp at hk'
      subst hk'
      left
      rfl)
    rfl
    (fun h => PyVal.noConfusion h)

theorem findRowIdx_eq_findIdx? (l : List String) (d : String) (n : Nat) :
    findRowIdx l d n = (l.findIdx? (fun v => pyStrip v == d)).map (fun j => n + j) := by
  induction l generalizing n with
  | nil => simp [findRowIdx]
  | cons v rest ih =>
    rw [findRowIdx, List.findIdx?_cons]
    by_cases hv : pyStrip v = d
    · simp [hv]
    · have hb : (pyStrip v == d) = false := by simp [hv]
      rw [if_neg hv, hb]
      simp only [Bool.false_eq_true, if_false, ih, List.findIdx?_succ, Option.map_map]
      cases rest.findIdx? (fun v => pyStrip v == d) with
      | none => rfl
      | some j =>
        simp only [Option.map_some', Function.comp_apply, Option.some.injEq]
        omega

/-- C5 (amended): row resolution returns 1 plus the index of the first column
A cell whose STRIPPED value equals the date string (the source strips each
cell before comparing); when no cell matches, it appends a row holding only
the date and returns the previous row count plus one. -/
theorem row_resolution_first_match_or_append (ws : Worksheet) (d : String) :
    (∀ j, ws.colA.findIdx? (fun v => pyStrip v == d) = some j →
      find_or_create_row_by_date ws d = (j + 1, ws, []))
    ∧ (ws.colA.findIdx? (fun v => pyStrip v == d) = Option.none →
      find_or_create_row_by_date ws d =
        (ws.colA.length + 1, ⟨ws.title, ws.colA ++ [d]⟩,
          [WriteOp.appendRow ws.title [Cell.str d]])) := by
  constructor
  · intro j hj
    unfold find_or_create_row_by_date
    rw [findRowIdx_eq_findIdx?, hj]
    simp [Nat.add_comm]
  · intro hn
    unfold find_or_create_row_by_date
    rw [findRowIdx_eq_findIdx?, hn]
    rfl

/-- Witness for the theorem of C5: the first (and only) matching cell is row 2. -/
theorem row_resolution_first_match_or_append_witness :
    find_or_create_row_by_date ⟨"부담제로", ["head", "2024-01-15"]⟩ "2024-01-15" =
      (2, ⟨"부담제로", ["head", "2024-01-15"]⟩, []) :=
  (row_resolution_first_match_or_append _ _).1 1 (by decide)

/-- Counterexample to C5 as stated: on a worksheet whose only cell is
`" 2024-01-15"` (leading space), the source resolves the date
`"2024-01-15"` to row 1 — the comparison is on stripped cell values — while
resolution by exact string match (the spec's wording) would find no match and
append a new row 2. -/
theorem row_resolution_not_exact_match :
    find_or_create_row_by_date ⟨"부담제로", [" 2024-01-15"]⟩ "2024-01-15" =
      (1, ⟨"부담제로", [" 2024-01-15"]⟩, [])
    ∧ findOrCreateRowByDateSpec ⟨"부담제로", [" 2024-01-15"]⟩ "2024-01-15" =
      (2, ⟨"부담제로", [" 2024-01-15", "2024-01-15"]⟩,
        [WriteOp.appendRow "부담제로" [Cell.str "2024-01-15"]])
    ∧ (" 2024-01-15" : String) ≠ "2024-01-15" :=
  ⟨rfl, rfl, by decide⟩

theorem findRowIdx_append_self (l : List String) (d : String) (n : Nat)
    (hnone : findRowIdx l d n = Option.none) (hd : pyStrip d = d) :
    findRowIdx (l ++ [d]) d n = some (n + l.length) := by
  induction l generalizing n with
  | nil => simp [findRowIdx, hd]
  | cons v rest ih =>
    simp only [List.cons_append] at *
    rw [findRowIdx] at hnone ⊢
    by_cases hv : pyStrip v = d
    · rw [if_pos hv] at hnone
      exact absurd hnone (by simp)
    · rw [if_neg hv] at hnone ⊢
      rw [ih _ hnone]
      congr 1
      simp [List.length_cons]
      omega

/-- C6 (amended): for a date string that carries no surrounding whitespace
(as the driver's ISO dates do), row resolution is idempotent: a second call
with the same date returns the same row index, leaves the worksheet
unchanged, and performs no write (no duplicate row). -/
theorem row_resolution_idempotent (ws : Worksheet) (d : String) (hd : pyStrip d = d) :
    find_or_create_row_by_date (find_or_create_row_by_date ws d).2.1 d =
      ((find_or_create_row_by_date ws d).1, (find_or_create_row_by_date ws d).2.1, []) := by
  unfold find_or_create_row_by_date
  cases h : findRowIdx ws.colA d 1 with
  | some i => simp [h]
  | none =>
    have h2 := findRowIdx_append_self ws.colA d 1 h hd
    simp [h, h2, Nat.add_comm]

/-- Witness for the theorem of C6 on an initially empty worksheet. -/
theorem row_resolution_idempotent_witness :
    find_or_create_row_by_date
        (find_or_create_row_by_date ⟨"부담제로", []⟩ "2024-01-15").2.1 "2024-01-15" =
      ((find_or_create_row_by_date ⟨"부담제로", []⟩ "2024-01-15").1,
        (find_or_create_row_by_date ⟨"부담제로", []⟩ "2024-01-15").2.1, []) :=
  row_resolution_idempotent ⟨"부담제로", []⟩ "2024-01-15" (by decide)

/-- Counterexample to C6 as stated: with the whitespace-carrying date
`" d"`, the first call appends a row but the second call does not find it
(the appended cell strips to `"d"` ≠ `" d"`), so it appends a duplicate row
and returns a different index. -/
theorem row_resolution_not_idempotent_for_padded_date :
    find_or_create_row_by_date ⟨"부담제로", []⟩ " d" =
      (1, ⟨"부담제로", [" d"]⟩, [WriteOp.appendRow "부담제로" [Cell.str " d"]])
    ∧ find_or_create_row_by_date ⟨"부담제로", [" d"]⟩ " d" =
      (2, ⟨"부담제로", [" d", " d"]⟩, [WriteOp.appendRow "부담제로" [Cell.str " d"]])
    ∧ (2 : Nat) ≠ 1 :=
  ⟨rfl, rfl, by decide⟩

/-- C7 (amended): a metric that is `None` at write time is written as the
empty string — in the driver this happens only for a channel object absent
per worksheet (Naver on the brainology sheet) — while a metric absent from
the payload has already been normalized to the integer 0 and is written as 0,
never as an empty cell. -/
theorem none_metrics_written_as_empty_string :
    (∀ ws row, write_meta_row ws row Option.none Option.none =
      WriteOp.update ws.title ("J" ++ toString row ++ ":K" ++ toString row)
        [Cell.str "", Cell.str ""])
    ∧ (∀ c1 c2 : Option DailyMetrics,
        (metricsRowValues c1 c2 Option.none).drop 4 = [Cell.str "", Cell.str ""])
    ∧ (∀ n m : Int, metaRowValues (some n) (some m) = [Cell.int n, Cell.int m]) :=
  ⟨fun _ _ => rfl, fun _ _ => rfl, fun _ _ => rfl⟩

/-- Witness for the theorem of C7 at a concrete worksheet and row. -/
theorem none_metrics_written_as_empty_string_witness :
    write_meta_row ⟨"뉴턴젤리", []⟩ 3 Option.none Option.none =
      WriteOp.update "뉴턴젤리" "J3:K3" [Cell.str "", Cell.str ""] :=
  none_metrics_written_as_empty_string.1 ⟨"뉴턴젤리", []⟩ 3

/-- The meta-ads payload of the C7 counterexample: `purchases` present,
`spend` absent. -/
def metaPayloadNoSpend : PyVal :=
  PyVal.dict [("mapped", PyVal.dict
    [("burdenzero", PyVal.dict [("purchases", PyVal.str "3")])])]

/-- Counterexample to C7 as stated: `spend` is absent from the payload, yet
the cell value produced for it (as `main` produces it: always `some` of the
normalized integer) is the integer 0, not the empty string — absence is not
distinguishable from zero for metrics missing inside a payload. -/
theorem absent_payload_metric_written_as_zero :
    metrics_from_meta_ads metaPayloadNoSpend = ⟨(0, 3), (0, 0)⟩
    ∧ metaRowValues (some (metrics_from_meta_ads metaPayloadNoSpend).burdenzero.1)
        (some (metrics_from_meta_ads metaPayloadNoSpend).burdenzero.2) =
        [Cell.int 0, Cell.int 3]
    ∧ Cell.int 0 ≠ Cell.str "" :=
  ⟨rfl, rfl, by decide⟩

/-- C9: if any of the five scraper invocations fails (non-zero exit, empty
stdout, or unparseable stdout — each surfacing as a `run_script` error), the
whole run aborts with a propagated error (hence a non-zero process exit) and
performs no spreadsheet write: no per-channel skip and no partial output. -/
theorem scraper_failure_aborts_run_without_writes (env : Env)
    (h : (∃ e, run_script cafe24_path env.cafe_bz = Except.error e)
      ∨ (∃ e, run_script cafe24_path env.cafe_br = Except.error e)
      ∨ (∃ e, run_script coupang_path env.coupang = Except.error e)
      ∨ (∃ e, run_script naver_path env.naver = Except.error e)
      ∨ (∃ e, run_script meta_ads_path env.meta_ads = Except.error e)) :
    (main' env).1 = [] ∧ ∃ e, (main' env).2 = Except.error e := by
  unfold main'
  cases h1 : run_script cafe24_path env.cafe_bz with
  | error e => exact ⟨rfl, e, rfl⟩
  | ok p1 =>
  dsimp only
  cases h2 : run_script cafe24_path env.cafe_br with
  | error e => exact ⟨rfl, e, rfl⟩
  | ok p2 =>
  dsimp only
  cases hm1 : metrics_from_simple p1 with
  | none => exact ⟨rfl, valueErrorMsg, rfl⟩
  | some m1 =>
  dsimp only
  cases hm2 : metrics_from_simple p2 with
  | none => exact ⟨rfl, valueErrorMsg, rfl⟩
  | some m2 =>
  dsimp only
  cases h3 : run_script coupang_path env.coupang with
  | error e => exact ⟨rfl, e, rfl⟩
  | ok p3 =>
  dsimp only
  cases hm3 : metrics_from_coupang p3 with
  | none => exact ⟨rfl, valueErrorMsg, rfl⟩
  | some m3 =>
  dsimp only
  cases h4 : run_script naver_path env.naver with
  | error e => exact ⟨rfl, e, rfl⟩
  | ok p4 =>
  dsimp only
  cases hm4 : metrics_from_simple p4 with
  | none => exact ⟨rfl, valueErrorMsg, rfl⟩
  | some m4 =>
  dsimp only
  cases h5 : run_script meta_ads_path env.meta_ads with
  | error e => exact ⟨rfl, e, rfl⟩
  | ok p5 =>
  rcases h with ⟨e, he⟩ | ⟨e, he⟩ | ⟨e, he⟩ | ⟨e, he⟩ | ⟨e, he⟩
  · rw [h1] at he
    exact Except.noConfusion he
  · rw [h2] at he
    exact Except.noConfusion he
  · rw [h3] at he
    exact Except.noConfusion he
  · rw [h4] at he
    exact Except.noConfusion he
  · rw [h5] at he
    exact Except.noConfusion he

/-- A successful simple-channel subprocess. -/
def okSimpleProc : ProcResult := ⟨0, "\x7b\"sales\": 5, \"orders\": 1\x7d", ""⟩

/-- A successful coupang subprocess with an empty mapping. -/
def okCoupangProc : ProcResult := ⟨0, "\x7b\"mapped\": \x7b\x7d\x7d", ""⟩

/-- A scraper subprocess that exited with status 1. -/
def failingProc : ProcResult := ⟨1, "", "selector timeout"⟩

/-- Environment of the C9 witness: four scrapers succeed, meta-ads exits 1. -/
def envMetaFails : Env :=
  ⟨okSimpleProc, okSimpleProc, okCoupangProc, okSimpleProc, failingProc, true,
    ⟨SHEET_BURDENZERO, []⟩, ⟨SHEET_BRAINOLOGY, []⟩, "2024-01-15"⟩

/-- Witness for the theorem of C9: with the meta-ads scraper failing, the run
aborts with an error and the write log stays empty. -/
theorem scraper_failure_aborts_run_without_writes_witness :
    (main' envMetaFails).1 = [] ∧ ∃ e, (main' envMetaFails).2 = Except.error e :=
  scraper_failure_aborts_run_without_writes envMetaFails
    (Or.inr (Or.inr (Or.inr (Or.inr
      ⟨scriptFailMsg meta_ads_path "" "selector timeout", rfl⟩))))
